import Mathlib

/-!
Verification of the Gantt-chart timeline geometry and interaction engine
(`src/views/gantt_chart.py`, `src/views/main_window.py`, `src/models/task.py`).

Dates are embedded as integers (days since an arbitrary epoch); pixel
coordinates are embedded as rationals (the source works with Python floats /
Qt qreal, whose arithmetic on the values reached here is exact decimal
arithmetic of small magnitude, faithfully represented by rationals).
-/

namespace Gantt

/-- Executable floor of a rational, kept definitionally computable so that
concrete runs reduce in the kernel. -/
def ratFloor (q : ℚ) : ℤ := q.num / q.den

theorem ratFloor_eq (q : ℚ) : ratFloor q = ⌊q⌋ := Rat.floor_def.symm

/-- Embedding of the builtin `round` used by the source (Python 3 rounds
half to even). -/
def pyRound (q : ℚ) : ℤ :=
  if q - ratFloor q < 1/2 then ratFloor q
  else if 1/2 < q - ratFloor q then ratFloor q + 1
  else if ratFloor q % 2 = 0 then ratFloor q else ratFloor q + 1

/-- Embedding of the builtin `int` conversion used by the source
(truncation toward zero). -/
def pyInt (q : ℚ) : ℤ :=
  if 0 ≤ q then ratFloor q else -(ratFloor (-q))

theorem pyRound_intCast (n : ℤ) : pyRound (n : ℚ) = n := by
  simp [pyRound, ratFloor_eq]

theorem pyRound_ge_one {q : ℚ} (h : 1 ≤ q) : 1 ≤ pyRound q := by
  have hf : (1 : ℤ) ≤ ratFloor q := by
    rw [ratFloor_eq, Int.le_floor]; exact_mod_cast h
  unfold pyRound
  split
  · exact hf
  · split
    · omega
    · split <;> omega

theorem pyInt_of_nonneg {q : ℚ} (h : 0 ≤ q) : pyInt q = ⌊q⌋ := by
  simp [pyInt, h, ratFloor_eq]

/-- Dates, as days since an epoch. -/
abbrev Date := Int

/-- In-memory task tree node, restricted to the fields read by the chart
code under verification (`src/models/task.py`). `children` is the transient
child list rebuilt on load. -/
inductive Task : Type where
  | mk (id : Int) (start_date : Date) (end_date : Date) (progress : Int)
       (children : List Task) : Task
deriving Repr

def Task.id : Task → Int
  | .mk i _ _ _ _ => i

def Task.start_date : Task → Date
  | .mk _ s _ _ _ => s

def Task.end_date : Task → Date
  | .mk _ _ e _ _ => e

def Task.progress : Task → Int
  | .mk _ _ _ p _ => p

def Task.children : Task → List Task
  | .mk _ _ _ _ c => c

/-- Derived duration in days, `Task.duration_days` of `src/models/task.py`:
`(end_date - start_date).days + 1`. -/
def Task.duration_days (t : Task) : Int :=
  t.end_date - t.start_date + 1

/-- Depth-first, sibling-order-preserving flattening,
`GanttChartWidget._flatten_tasks` of `src/views/gantt_chart.py`. -/
def flatten_tasks : List Task → List Task
  | [] => []
  | Task.mk i s e p c :: rest =>
      Task.mk i s e p c :: (flatten_tasks c ++ flatten_tasks rest)

/-- Fixed left margin of the chart (`self.left_margin = 20`). -/
def left_margin : ℚ := 20

/-- Date-to-pixel mapping used by `draw_task_bar` (line 395 of
`src/views/gantt_chart.py`): `left_margin + (d - min_date).days * day_width`. -/
def date_to_x (day_width : ℚ) (min_date d : Date) : ℚ :=
  left_margin + ((d - min_date : Int) : ℚ) * day_width

/-- Pixel-to-date mapping used by `mouseReleaseEvent` (line 698):
`min_date + round((x - left_margin) / day_width)` days. -/
def x_to_date (day_width : ℚ) (min_date : Date) (x : ℚ) : Date :=
  min_date + pyRound ((x - left_margin) / day_width)

/-- Date-pair commit of `mouseReleaseEvent` (lines 697-703): the final
rectangle geometry is translated back into a start date and an end date,
the end being `start + (round(width / day_width) - 1)` days. -/
def commit_dates (day_width : ℚ) (min_date : Date) (x w : ℚ) : Date × Date :=
  let start_days := pyRound ((x - left_margin) / day_width)
  let dur := pyRound (w / day_width)
  (min_date + start_days, min_date + start_days + dur - 1)

/-- Progress commit of `mouseReleaseEvent` (lines 688-690):
`int((progress_width / bar_width) * 100)` clamped into `[0, 100]` by
`max(0, min(100, .))`. -/
def commit_progress (bar_w prog_w : ℚ) : ℤ :=
  max 0 (min 100 (pyInt (prog_w / bar_w * 100)))

/-- C1: for every date d within [min_date, max_date], converting d to an x
coordinate and back yields d, for each of the three granularity unit widths
(day 40, week 30, month 10). -/
theorem C1_axis_roundtrip (day_width : ℚ)
    (hdw : day_width = 40 ∨ day_width = 30 ∨ day_width = 10)
    (min_date max_date d : Date)
    (h1 : min_date ≤ d) (h2 : d ≤ max_date) :
    x_to_date day_width min_date (date_to_x day_width min_date d) = d := by
  have hne : day_width ≠ 0 := by rcases hdw with h | h | h <;> rw [h] <;> norm_num
  unfold x_to_date date_to_x
  rw [add_sub_cancel_left, mul_div_cancel_right₀ _ hne, pyRound_intCast]
  ring

/-- Concrete instance of C1: day granularity, min_date = 0, max_date = 10,
d = 5. -/
theorem C1_axis_roundtrip_witness :
    x_to_date 40 0 (date_to_x 40 0 5) = 5 :=
  C1_axis_roundtrip 40 (Or.inl rfl) 0 10 5 (by decide) (by decide)

/-- All start/end dates collected by `calculate_date_range` (lines 111-114
of `src/views/gantt_chart.py`): it iterates over `self.tasks` as given,
appending each task's start and end date. -/
def task_dates (tasks : List Task) : List Date :=
  tasks.flatMap (fun t => [t.start_date, t.end_date])

/-- Axis range computation, `GanttChartWidget.calculate_date_range`
(lines 106-121): on an empty list it returns leaving the range unset;
otherwise min/max over the collected dates, padded by 3 days each side. -/
def calculate_date_range (tasks : List Task) : Option (Date × Date) :=
  match (task_dates tasks).min?, (task_dates tasks).max? with
  | some lo, some hi => some (lo - 3, hi + 3)
  | _, _ => none

/-- Row assignment of `draw_chart` (lines 156-162): `row` starts at 0 and
`task_rows[task.id] = row` is assigned sequentially while iterating over
`self.tasks` as given (the widget does not flatten the list here). -/
def task_rows (tasks : List Task) : List (Int × Nat) :=
  tasks.enum.map (fun p => (p.2.id, p.1))

/-- Demo child task: id 2, days 0..5, attached under the demo root. -/
def demo_child : Task := .mk 2 0 5 0 []

/-- Demo root task: id 1, days 10..12, with one child. `refresh_view` in
`src/views/main_window.py` passes exactly such root tasks (children
attached, list not flattened) to `GanttChartWidget.load_tasks`. -/
def demo_root : Task := .mk 1 10 12 0 [demo_child]

/-- Database task row, restricted to the fields read by the tree-building
loop of `MainWindow.refresh_view` (`src/views/main_window.py` lines
333-340). -/
structure DbTask where
  id : Int
  parent_id : Option Int
deriving DecidableEq, Repr

/-- Outcome of the per-task branch in the tree-building loop of
`refresh_view`. -/
inductive LinkAction : Type where
  | addChild (pid : Int) : LinkAction
  | addRoot : LinkAction
  | drop : LinkAction
deriving DecidableEq, Repr

/-- Per-task branch of the loop (lines 336-340): `if task.parent_id and
task.parent_id in task_dict:` add as child; `elif task.parent_id is None:`
add to roots; otherwise the task falls through both branches. A parent id
of 0 is falsy in Python, hence the nonzero test. -/
def link_action (ids : List Int) (t : DbTask) : LinkAction :=
  match t.parent_id with
  | none => .addRoot
  | some p => if p ≠ 0 ∧ p ∈ ids then .addChild p else .drop

/-- Root list built by `refresh_view`: tasks appended to `root_tasks`, in
iteration order. -/
def root_tasks (tasks : List DbTask) : List DbTask :=
  tasks.filter (fun t => link_action (tasks.map DbTask.id) t = .addRoot)

/-- Children assigned to the task with id `pid` by the same loop, in
iteration order. -/
def assigned_children (tasks : List DbTask) (pid : Int) : List DbTask :=
  tasks.filter (fun t => link_action (tasks.map DbTask.id) t = .addChild pid)

/-- Widget state touched by `GanttChartWidget.set_view_mode`
(lines 65-83 of `src/views/gantt_chart.py`). -/
structure ChartState where
  view_mode : String
  day_width : ℚ
  tasks : List Task

/-- Embedding of `set_view_mode`: an invalid mode string returns
immediately; a valid one sets `view_mode`, sets `day_width` to 40/30/10,
and redraws only when `self.tasks` is nonempty. The boolean records
whether a redraw happened. -/
def set_view_mode (s : ChartState) (mode : String) : ChartState × Bool :=
  if mode = "day" ∨ mode = "week" ∨ mode = "month" then
    let dw : ℚ := if mode = "day" then 40 else if mode = "week" then 30 else 10
    ({ s with view_mode := mode, day_width := dw }, !s.tasks.isEmpty)
  else (s, false)

/-- Axis-aligned rectangle of the scene (Qt QRectF). -/
structure Rect where
  x : ℚ
  y : ℚ
  w : ℚ
  h : ℚ
deriving DecidableEq, Repr

/-- A straight dependency connector from (x1, y1) to (x2, y2). -/
structure Arrow where
  x1 : ℚ
  y1 : ℚ
  x2 : ℚ
  y2 : ℚ
deriving DecidableEq, Repr

/-- Dependency edge, `TaskDependency` of `src/models/task.py` restricted to
the ids the renderer reads. -/
structure Dep where
  predecessor_id : Int
  successor_id : Int
deriving DecidableEq, Repr

/-- Lookup in an association list, modelling the `task_bars` dict. -/
def lookup (m : List (Int × Rect)) (k : Int) : Option Rect :=
  (m.find? (fun p => p.1 = k)).map Prod.snd

/-- Embedding of `draw_dependency_arrow` (lines 525-547): missing endpoint
bars make it return without drawing; otherwise a straight line from the
predecessor bar's right-center to the successor bar's left-center. -/
def draw_dependency_arrow (bars : List (Int × Rect)) (pid sid : Int) :
    Option Arrow :=
  match lookup bars pid, lookup bars sid with
  | some pb, some sb =>
      some ⟨pb.x + pb.w, pb.y + pb.h / 2, sb.x, sb.y + sb.h / 2⟩
  | _, _ => none

/-- Per-edge behaviour of the dependency loop of `draw_chart`
(lines 164-171): the edge is drawn only when both endpoints are keys of
`task_rows`, and then through `draw_dependency_arrow`. -/
def dep_arrow (rows : List (Int × Nat)) (bars : List (Int × Rect))
    (d : Dep) : Option Arrow :=
  if (rows.map Prod.fst).contains d.predecessor_id ∧
     (rows.map Prod.fst).contains d.successor_id then
    draw_dependency_arrow bars d.predecessor_id d.successor_id
  else none

/-- All connectors produced by one `draw_chart` pass, in edge order. -/
def chart_arrows (rows : List (Int × Nat)) (bars : List (Int × Rect))
    (deps : List Dep) : List Arrow :=
  deps.filterMap (dep_arrow rows bars)

/-- Bar rectangle computed by `draw_task_bar` (lines 392-398):
`(x, y, width, height) = (date_to_x(start), top_margin + row*row_height*1.35
+ 18, duration_days * day_width, row_height - 10)` with `top_margin = 70`
and `row_height = 50`. -/
def task_bar_rect (day_width : ℚ) (min_date : Date) (t : Task) (row : Nat) :
    Rect :=
  { x := date_to_x day_width min_date t.start_date
  , y := 70 + (row : ℚ) * 50 * (27/20) + 18
  , w := (t.duration_days : ℚ) * day_width
  , h := 50 - 10 }

/-- Drag mode recorded on mouse press (`self.drag_mode`):
move, resize_left, resize_right, or progress. -/
inductive DragMode : Type where
  | move : DragMode
  | resize_left : DragMode
  | resize_right : DragMode
  | progress : DragMode
deriving DecidableEq, Repr

/-- Mutable drag state of the widget during a drag: the dragged item's
rectangle, the anchor x position (`self.drag_start_pos`), the
`self.has_moved` flag, the mode, and (for progress drags) the enclosing
task bar's rectangle. -/
structure DragState where
  rect : Rect
  anchor_x : ℚ
  has_moved : Bool
  mode : DragMode
  bar_rect : Rect
deriving DecidableEq, Repr

/-- One `mouseMoveEvent` step while dragging (lines 603-656 of
`src/views/gantt_chart.py`), at pointer scene x position `px`:
`delta_x = px - drag_start_pos.x`; `has_moved` is set when
`abs(delta_x) > 3`; then the mode-specific rectangle update. Move shifts x
and re-anchors; the resizes update only when the new width exceeds
`day_width` (re-anchoring only then); progress clamps the pointer into the
task bar's horizontal span and never re-anchors. -/
def mouse_move_step (day_width : ℚ) (s : DragState) (px : ℚ) : DragState :=
  let delta := px - s.anchor_x
  let moved := if 3 < |delta| then true else s.has_moved
  match s.mode with
  | .move =>
      { s with rect := { s.rect with x := s.rect.x + delta }
             , anchor_x := px, has_moved := moved }
  | .resize_left =>
      let nw := s.rect.w - delta
      if day_width < nw then
        { s with rect := { s.rect with x := s.rect.x + delta, w := nw }
               , anchor_x := px, has_moved := moved }
      else { s with has_moved := moved }
  | .resize_right =>
      let nw := s.rect.w + delta
      if day_width < nw then
        { s with rect := { s.rect with w := nw }
               , anchor_x := px, has_moved := moved }
      else { s with has_moved := moved }
  | .progress =>
      let cl := max s.bar_rect.x (min px (s.bar_rect.x + s.bar_rect.w))
      { s with rect := { s.rect with x := s.bar_rect.x, w := cl - s.bar_rect.x }
             , has_moved := moved }

/-- A whole drag: the fold of `mouseMoveEvent` steps over the successive
pointer x positions. -/
def run_drag (day_width : ℚ) (s : DragState) (moves : List ℚ) : DragState :=
  moves.foldl (mouse_move_step day_width) s

/-- Total pointer movement along a path: the sum of the absolute x
displacements of the successive pointer positions, starting from the
anchor. -/
def pathLen : ℚ → List ℚ → ℚ
  | _, [] => 0
  | a, x :: xs => |x - a| + pathLen x xs

/-- Events emitted by the widget (its Qt signals). -/
inductive Event : Type where
  | clicked (id : Int) : Event
  | date_changed (id : Int) (new_start new_end : Date) : Event
  | progress_changed (id : Int) (p : ℤ) : Event
deriving DecidableEq, Repr

/-- Events emitted by `mousePressEvent` (lines 549-560): `task_clicked` is
emitted when the pressed item carries a truthy task id. -/
def press_events (task_id : Int) : List Event :=
  if task_id ≠ 0 then [.clicked task_id] else []

/-- Events emitted by `mouseReleaseEvent` (lines 673-714): nothing unless
`has_moved`; in progress mode the clamped truncated percentage, emitted only
when it differs from the original; otherwise the date pair from the final
rectangle, emitted only when it differs from the original dates. -/
def release_events (day_width : ℚ) (min_date : Date) (task_id : Int)
    (original_dates : Date × Date) (original_progress : ℤ)
    (s : DragState) : List Event :=
  if task_id = 0 then []
  else if s.has_moved = false then []
  else
    match s.mode with
    | .progress =>
        let np := commit_progress s.bar_rect.w s.rect.w
        if np ≠ original_progress then [.progress_changed task_id np] else []
    | _ =>
        let r := commit_dates day_width min_date s.rect.x s.rect.w
        if r.1 ≠ original_dates.1 ∨ r.2 ≠ original_dates.2 then
          [.date_changed task_id r.1 r.2]
        else []

theorem pathLen_nonneg (a : ℚ) (xs : List ℚ) : 0 ≤ pathLen a xs := by
  induction xs generalizing a with
  | nil => exact le_refl 0
  | cons x xs ih =>
      simp only [pathLen]
      exact add_nonneg (abs_nonneg _) (ih x)

theorem pathLen_anchor (a b : ℚ) (xs : List ℚ) :
    pathLen b xs ≤ |a - b| + pathLen a xs := by
  cases xs with
  | nil => simp [pathLen, abs_nonneg (a - b)]
  | cons y ys =>
      simp only [pathLen]
      have h1 : |y - b| ≤ |y - a| + |a - b| := abs_sub_le y a b
      linarith

theorem step_mode (dw : ℚ) (s : DragState) (px : ℚ) :
    (mouse_move_step dw s px).mode = s.mode := by
  obtain ⟨r, a, hmv, m, b⟩ := s
  cases m <;> simp only [mouse_move_step] <;> (try split) <;> rfl

theorem step_anchor (dw : ℚ) (s : DragState) (px : ℚ) :
    (mouse_move_step dw s px).anchor_x = px ∨
    (mouse_move_step dw s px).anchor_x = s.anchor_x := by
  obtain ⟨r, a, hmv, m, b⟩ := s
  cases m <;> simp only [mouse_move_step] <;> (try split) <;> simp

theorem step_has_moved_false (dw : ℚ) (s : DragState) (px : ℚ)
    (h : |px - s.anchor_x| ≤ 3) (h0 : s.has_moved = false) :
    (mouse_move_step dw s px).has_moved = false := by
  have hmv : (if 3 < |px - s.anchor_x| then true else s.has_moved) = false := by
    rw [if_neg (not_lt.mpr h), h0]
  obtain ⟨r, a, hm0, m, b⟩ := s
  simp only at hmv
  cases m <;> simp only [mouse_move_step] <;> (try split) <;> simp_all

theorem step_w_move (dw : ℚ) (s : DragState) (px : ℚ)
    (hm : s.mode = DragMode.move) :
    (mouse_move_step dw s px).rect.w = s.rect.w := by
  obtain ⟨r, a, hmv, m, b⟩ := s
  simp only at hm
  subst hm
  simp [mouse_move_step]

theorem step_w_resize (dw : ℚ) (s : DragState) (px : ℚ)
    (hm : s.mode = DragMode.resize_left ∨ s.mode = DragMode.resize_right)
    (h : dw ≤ s.rect.w) : dw ≤ (mouse_move_step dw s px).rect.w := by
  obtain ⟨r, a, hmv, m, b⟩ := s
  simp only at hm h
  rcases hm with hm | hm <;> subst hm <;>
    simp only [mouse_move_step] <;> split <;>
    first
      | (next hlt => simpa using le_of_lt hlt)
      | simpa using h

theorem run_drag_cons (dw : ℚ) (s : DragState) (x : ℚ) (xs : List ℚ) :
    run_drag dw s (x :: xs) = run_drag dw (mouse_move_step dw s x) xs := rfl

theorem run_drag_mode (dw : ℚ) (moves : List ℚ) (s : DragState) :
    (run_drag dw s moves).mode = s.mode := by
  induction moves generalizing s with
  | nil => rfl
  | cons x xs ih => rw [run_drag_cons, ih, step_mode]

theorem run_drag_w_move (dw : ℚ) (moves : List ℚ) (s : DragState)
    (hm : s.mode = DragMode.move) :
    (run_drag dw s moves).rect.w = s.rect.w := by
  induction moves generalizing s with
  | nil => rfl
  | cons x xs ih =>
      rw [run_drag_cons, ih _ ((step_mode dw s x).trans hm),
          step_w_move dw s x hm]

theorem run_drag_w_resize (dw : ℚ) (moves : List ℚ) (s : DragState)
    (hm : s.mode = DragMode.resize_left ∨ s.mode = DragMode.resize_right)
    (h : dw ≤ s.rect.w) : dw ≤ (run_drag dw s moves).rect.w := by
  induction moves generalizing s with
  | nil => exact h
  | cons x xs ih =>
      rw [run_drag_cons]
      refine ih _ ?_ (step_w_resize dw s x hm h)
      rw [step_mode]
      exact hm

theorem run_drag_has_moved_false (dw : ℚ) (moves : List ℚ) (s : DragState)
    (h0 : s.has_moved = false) (hp : pathLen s.anchor_x moves ≤ 3) :
    (run_drag dw s moves).has_moved = false := by
  induction moves generalizing s with
  | nil => exact h0
  | cons x xs ih =>
      simp only [pathLen] at hp
      have hnn := pathLen_nonneg x xs
      have hd : |x - s.anchor_x| ≤ 3 := by linarith
      rw [run_drag_cons]
      refine ih _ (step_has_moved_false dw s x hd h0) ?_
      rcases step_anchor dw s x with ha | ha <;> rw [ha]
      · have := abs_nonneg (x - s.anchor_x)
        linarith
      · have := pathLen_anchor x s.anchor_x xs
        linarith

theorem release_date_event (dw : ℚ) (md : Date) (tid : Int)
    (od : Date × Date) (op : ℤ) (s : DragState)
    (hm : s.mode ≠ DragMode.progress) (ns ne : Date)
    (he : Event.date_changed tid ns ne ∈ release_events dw md tid od op s) :
    ns = (commit_dates dw md s.rect.x s.rect.w).1 ∧
    ne = (commit_dates dw md s.rect.x s.rect.w).2 := by
  unfold release_events at he
  split at he
  · simp at he
  · split at he
    · simp at he
    · cases hsm : s.mode with
      | progress => exact absurd hsm hm
      | move =>
          rw [hsm] at he
          simp only at he
          split at he <;> simp_all
      | resize_left =>
          rw [hsm] at he
          simp only at he
          split at he <;> simp_all
      | resize_right =>
          rw [hsm] at he
          simp only at he
          split at he <;> simp_all

theorem flatten_demo : flatten_tasks [demo_root] = [demo_root, demo_child] := by
  simp [flatten_tasks, demo_root, demo_child]

/-- C4: the claim says the axis range is computed over the whole flattened
tree; the code iterates only the list it is given (the root tasks supplied
by refresh_view). On a root spanning days 10..12 with a child spanning
days 0..5, the code yields (7, 15) while the claimed computation over all
visible (flattened) tasks yields (-3, 15). -/
theorem C4_range_ignores_children :
    calculate_date_range [demo_root] = some (7, 15) ∧
    calculate_date_range (flatten_tasks [demo_root]) = some (-3, 15) ∧
    calculate_date_range [demo_root] ≠
      calculate_date_range (flatten_tasks [demo_root]) := by
  rw [flatten_demo]
  refine ⟨by decide, by decide, by decide⟩

/-- C5: the claim says every task of the tree, in depth-first order,
receives a row; the code assigns rows by enumerating only the list it is
given. On a root (id 1) with one child (id 2), the code assigns rows
[(1, 0)] while the depth-first flattening contains both ids, so the child
task receives no row and no bar. -/
theorem C5_rows_ignore_children :
    task_rows [demo_root] = [(1, 0)] ∧
    task_rows (flatten_tasks [demo_root]) = [(1, 0), (2, 1)] ∧
    task_rows [demo_root] ≠ task_rows (flatten_tasks [demo_root]) := by
  rw [flatten_demo]
  refine ⟨by decide, by decide, by decide⟩

/-- C9 counterexample: in a task set containing task 1 (no parent) and
task 2 (parent id 5, which is outside the set), the loop of refresh_view
makes only task 1 a root: task 2 is neither appended to the roots nor
attached as a child, refuting the claim that dangling-parent tasks are
treated as roots. -/
theorem C9_orphan_not_root_cex :
    root_tasks [⟨1, none⟩, ⟨2, some 5⟩] = [⟨1, none⟩] ∧
    (⟨2, some 5⟩ : DbTask) ∉ root_tasks [⟨1, none⟩, ⟨2, some 5⟩] ∧
    (5 : Int) ∉ ([⟨1, none⟩, ⟨2, some 5⟩] : List DbTask).map DbTask.id := by
  refine ⟨by decide, by decide, by decide⟩

/-- C9 as amended: the root set consists exactly of the tasks with no
parent id; a task whose nonzero parent id points outside the project's
task set is silently dropped, appearing neither among the roots nor in any
task's child list. -/
theorem C9_roots_amended (tasks : List DbTask) (t : DbTask) (p : Int)
    (ht : t ∈ tasks) (hp : t.parent_id = some p) (hpz : p ≠ 0)
    (hout : p ∉ tasks.map DbTask.id) :
    root_tasks tasks = tasks.filter (fun u => u.parent_id = none) ∧
    t ∉ root_tasks tasks ∧
    ∀ q, t ∉ assigned_children tasks q := by
  refine ⟨?_, ?_, ?_⟩
  · unfold root_tasks
    refine List.filter_congr ?_
    intro u hu
    cases hpu : u.parent_id with
    | none => simp [link_action, hpu]
    | some q =>
        simp only [link_action, hpu, decide_eq_decide]
        split <;> simp
  · intro hmem
    rw [root_tasks, List.mem_filter] at hmem
    have h2 := hmem.2
    simp only [decide_eq_true_eq, link_action, hp] at h2
    split at h2 <;> simp at h2
  · intro q hmem
    rw [assigned_children, List.mem_filter] at hmem
    have h2 := hmem.2
    simp only [decide_eq_true_eq, link_action, hp] at h2
    rw [if_neg (fun hc => hout hc.2)] at h2
    simp at h2

/-- Concrete instance of C9 as amended, at the counterexample task set. -/
theorem C9_roots_amended_witness :
    root_tasks [⟨1, none⟩, ⟨2, some 5⟩] =
      ([⟨1, none⟩, ⟨2, some 5⟩] : List DbTask).filter
        (fun u => u.parent_id = none) ∧
    (⟨2, some 5⟩ : DbTask) ∉ root_tasks [⟨1, none⟩, ⟨2, some 5⟩] ∧
    ∀ q, (⟨2, some 5⟩ : DbTask) ∉
        assigned_children [⟨1, none⟩, ⟨2, some 5⟩] q :=
  C9_roots_amended [⟨1, none⟩, ⟨2, some 5⟩] ⟨2, some 5⟩ 5
    (by decide) rfl (by decide) (by decide)

/-- C10: set_view_mode leaves the state untouched and does not redraw on
any string other than day/week/month; on the three valid strings it sets
day_width to 40, 30 and 10 and redraws exactly when tasks are loaded. -/
theorem C10_set_view_mode (s : ChartState) (m : String)
    (hm : ¬(m = "day" ∨ m = "week" ∨ m = "month")) :
    set_view_mode s m = (s, false) ∧
    (set_view_mode s "day").1.view_mode = "day" ∧
    (set_view_mode s "week").1.view_mode = "week" ∧
    (set_view_mode s "month").1.view_mode = "month" ∧
    (set_view_mode s "day").1.day_width = 40 ∧
    (set_view_mode s "week").1.day_width = 30 ∧
    (set_view_mode s "month").1.day_width = 10 ∧
    (set_view_mode s "day").2 = !s.tasks.isEmpty ∧
    (set_view_mode s "week").2 = !s.tasks.isEmpty ∧
    (set_view_mode s "month").2 = !s.tasks.isEmpty := by
  refine ⟨?_, ?_⟩
  · simp [set_view_mode, hm]
  · simp [set_view_mode]

/-- Concrete instance of C10 with the invalid mode string "year". -/
theorem C10_set_view_mode_witness :
    set_view_mode ⟨"day", 40, []⟩ "year" = (⟨"day", 40, []⟩, false) ∧
    (set_view_mode ⟨"day", 40, []⟩ "day").1.view_mode = "day" ∧
    (set_view_mode ⟨"day", 40, []⟩ "week").1.view_mode = "week" ∧
    (set_view_mode ⟨"day", 40, []⟩ "month").1.view_mode = "month" ∧
    (set_view_mode ⟨"day", 40, []⟩ "day").1.day_width = 40 ∧
    (set_view_mode ⟨"day", 40, []⟩ "week").1.day_width = 30 ∧
    (set_view_mode ⟨"day", 40, []⟩ "month").1.day_width = 10 ∧
    (set_view_mode ⟨"day", 40, []⟩ "day").2 = !([] : List Task).isEmpty ∧
    (set_view_mode ⟨"day", 40, []⟩ "week").2 = !([] : List Task).isEmpty ∧
    (set_view_mode ⟨"day", 40, []⟩ "month").2 = !([] : List Task).isEmpty :=
  C10_set_view_mode ⟨"day", 40, []⟩ "year" (by decide)

/-- C8: a dependency edge with an endpoint absent from the laid-out rows or
bars produces no connector (the edge is skipped, the drawing function being
total no error is possible); an edge with both endpoints present produces
the straight connector from the predecessor bar's right-center to the
successor bar's left-center. -/
theorem C8_dependency_arrows (rows : List (Int × Nat))
    (bars : List (Int × Rect)) (d : Dep) :
    ((¬ (rows.map Prod.fst).contains d.predecessor_id ∨
      ¬ (rows.map Prod.fst).contains d.successor_id ∨
      lookup bars d.predecessor_id = none ∨
      lookup bars d.successor_id = none) →
      dep_arrow rows bars d = none) ∧
    (∀ pb sb, lookup bars d.predecessor_id = some pb →
      lookup bars d.successor_id = some sb →
      (rows.map Prod.fst).contains d.predecessor_id →
      (rows.map Prod.fst).contains d.successor_id →
      dep_arrow rows bars d =
        some ⟨pb.x + pb.w, pb.y + pb.h / 2, sb.x, sb.y + sb.h / 2⟩) := by
  constructor
  · intro h
    unfold dep_arrow
    split
    · rename_i hc
      rcases h with h | h | h | h
      · exact absurd hc.1 h
      · exact absurd hc.2 h
      · cases hl : lookup bars d.predecessor_id <;>
          simp [draw_dependency_arrow, hl, h] <;> simp_all
      · cases hl : lookup bars d.predecessor_id <;>
          simp [draw_dependency_arrow, hl, h]
    · rfl
  · intro pb sb hpb hsb h1 h2
    unfold dep_arrow
    rw [if_pos ⟨h1, h2⟩]
    simp [draw_dependency_arrow, hpb, hsb]

/-- Concrete instance of C8: bars for tasks 1 and 2; edge 1→2 yields the
connector between the bar centers, and edge 1→3 (successor absent) yields
nothing. -/
theorem C8_dependency_arrows_witness :
    dep_arrow [(1, 0), (2, 1)]
      [(1, ⟨0, 0, 10, 10⟩), (2, ⟨20, 20, 10, 10⟩)] ⟨1, 2⟩ =
      some ⟨0 + 10, 0 + 10 / 2, 20, 20 + 10 / 2⟩ ∧
    dep_arrow [(1, 0), (2, 1)]
      [(1, ⟨0, 0, 10, 10⟩), (2, ⟨20, 20, 10, 10⟩)] ⟨1, 3⟩ = none :=
  ⟨(C8_dependency_arrows [(1, 0), (2, 1)]
      [(1, ⟨0, 0, 10, 10⟩), (2, ⟨20, 20, 10, 10⟩)] ⟨1, 2⟩).2
      ⟨0, 0, 10, 10⟩ ⟨20, 20, 10, 10⟩ (by decide) (by decide)
      (by decide) (by decide),
   (C8_dependency_arrows [(1, 0), (2, 1)]
      [(1, ⟨0, 0, 10, 10⟩), (2, ⟨20, 20, 10, 10⟩)] ⟨1, 3⟩).1
      (Or.inr (Or.inl (by decide)))⟩

/-- C2: every committed Move drag preserves the task's duration: any
task_date_changed event the release emits carries dates whose difference
equals the original end_date - start_date (the end is recomputed from the
original duration, only the start shifts). -/
theorem C2_move_preserves_duration (day_width : ℚ) (hdw : 0 < day_width)
    (t : Task) (min_date : Date) (op : ℤ) (row : Nat) (s0 : DragState)
    (moves : List ℚ) (hmode : s0.mode = DragMode.move)
    (hw0 : s0.rect.w = (task_bar_rect day_width min_date t row).w) :
    ∀ ns ne, Event.date_changed t.id ns ne ∈
        release_events day_width min_date t.id (t.start_date, t.end_date) op
          (run_drag day_width s0 moves) →
      ne - ns = t.end_date - t.start_date := by
  intro ns ne he
  have hmfin : (run_drag day_width s0 moves).mode = DragMode.move :=
    (run_drag_mode day_width moves s0).trans hmode
  have hnp : (run_drag day_width s0 moves).mode ≠ DragMode.progress := by
    rw [hmfin]; simp
  have hw : (run_drag day_width s0 moves).rect.w =
      (t.duration_days : ℚ) * day_width := by
    rw [run_drag_w_move day_width moves s0 hmode, hw0]; rfl
  obtain ⟨hns, hne⟩ :=
    release_date_event day_width min_date t.id _ op _ hnp ns ne he
  rw [hns, hne]
  simp only [commit_dates]
  have hdur : pyRound ((run_drag day_width s0 moves).rect.w / day_width) =
      t.duration_days := by
    rw [hw, mul_div_cancel_right₀ _ (ne_of_gt hdw), pyRound_intCast]
  rw [hdur, Task.duration_days]
  ring

/-- Demo task for the Move-drag scenario: id 7, days 10..12. -/
def demoTaskC2 : Task := .mk 7 10 12 0 []

/-- Fresh Move-drag state on the demo task's bar (day view, min_date 0,
row 0), pressed at scene x 425. -/
def demoDragC2 : DragState :=
  { rect := task_bar_rect 40 0 demoTaskC2 0
  , anchor_x := 425
  , has_moved := false
  , mode := DragMode.move
  , bar_rect := task_bar_rect 40 0 demoTaskC2 0 }

theorem demoDragC2_release :
    release_events 40 0 demoTaskC2.id
      (demoTaskC2.start_date, demoTaskC2.end_date) 0
      (run_drag 40 demoDragC2 [465]) =
      [Event.date_changed 7 11 13] := by
  norm_num [demoTaskC2, demoDragC2, release_events, run_drag,
    mouse_move_step, commit_dates, task_bar_rect, date_to_x, left_margin,
    Task.id, Task.start_date, Task.end_date, Task.duration_days,
    pyRound, ratFloor_eq]

/-- Concrete instance of C2: the demo task dragged right by one unit
commits dates 11..13, preserving the 3-day duration. -/
theorem C2_move_preserves_duration_witness :
    (13 : Date) - 11 = demoTaskC2.end_date - demoTaskC2.start_date :=
  C2_move_preserves_duration 40 (by norm_num) demoTaskC2 0 0 0 demoDragC2
    [465] rfl rfl 11 13
    (by rw [demoDragC2_release]; simp [demoTaskC2, Task.id])

/-- C3 counterexample: the code truncates with int() where the claim says
round(). In day view a 1-day bar is 40 px wide; dragging the progress
handle to 30.3 px from the bar's left edge commits
int(30.3 / 40 * 100) = int(75.75) = 75, while the claimed
round(30.3 / 40 * 100) = 76. -/
theorem C3_truncation_cex :
    commit_progress 40 (303/10) = 75 ∧
    pyRound ((303/10 : ℚ) / 40 * 100) = 76 := by
  have hv : ((303:ℚ)/10) / 40 * 100 = 303/4 := by norm_num
  constructor
  · rw [commit_progress, hv, pyInt_of_nonneg (by norm_num)]
    norm_num
  · rw [hv, pyRound, ratFloor_eq]
    norm_num

/-- C3 as amended: the committed progress equals the floor (truncation) of
progress_width / bar_width * 100, the clamp being a no-op for an in-range
handle; the committed value is always within [0, 100], and the bar's left
and right edges commit exactly 0 and 100. -/
theorem C3_progress_amended (bw pw : ℚ) (hb : 0 < bw) (h0 : 0 ≤ pw)
    (h1 : pw ≤ bw) :
    commit_progress bw pw = ⌊pw / bw * 100⌋ ∧
    0 ≤ commit_progress bw pw ∧ commit_progress bw pw ≤ 100 ∧
    commit_progress bw 0 = 0 ∧ commit_progress bw bw = 100 := by
  have hq0 : 0 ≤ pw / bw * 100 := by positivity
  have hq1 : pw / bw * 100 ≤ 100 := by
    have hr : pw / bw ≤ 1 := (div_le_one hb).mpr h1
    nlinarith
  have hfl : (0:ℤ) ≤ ⌊pw / bw * 100⌋ := Int.le_floor.mpr (by exact_mod_cast hq0)
  have hfu : ⌊pw / bw * 100⌋ ≤ 100 := by
    have h := Int.floor_le_floor hq1
    simpa using h
  have hmain : commit_progress bw pw = ⌊pw / bw * 100⌋ := by
    rw [commit_progress, pyInt_of_nonneg hq0]
    omega
  refine ⟨hmain, by omega, by omega, ?_, ?_⟩
  · rw [commit_progress, zero_div, zero_mul, pyInt_of_nonneg le_rfl]
    norm_num
  · rw [commit_progress, div_self (ne_of_gt hb), one_mul,
      pyInt_of_nonneg (by norm_num)]
    norm_num

/-- Concrete instance of C3 as amended, at the spec's scenario: a 200 px
bar with the handle at 150 px commits 75. -/
theorem C3_progress_amended_witness :
    commit_progress 200 150 = ⌊(150:ℚ) / 200 * 100⌋ ∧
    0 ≤ commit_progress 200 150 ∧ commit_progress 200 150 ≤ 100 ∧
    commit_progress 200 0 = 0 ∧ commit_progress 200 200 = 100 :=
  C3_progress_amended 200 150 (by norm_num) (by norm_num) (by norm_num)

/-- C6: for every Resize drag starting from a bar at least one unit wide,
the width stays at least one day_width through every move, and any
committed task_date_changed satisfies new_start ≤ new_end, i.e. the
committed duration is at least one day; shrinking below the minimum is
clamped (the step leaves the rectangle unchanged), never an error. -/
theorem C6_resize_clamped (day_width : ℚ) (hdw : 0 < day_width)
    (min_date : Date) (task_id : Int) (od : Date × Date) (op : ℤ)
    (s0 : DragState) (moves : List ℚ)
    (hmode : s0.mode = DragMode.resize_left ∨
      s0.mode = DragMode.resize_right)
    (hw0 : day_width ≤ s0.rect.w) :
    day_width ≤ (run_drag day_width s0 moves).rect.w ∧
    ∀ ns ne, Event.date_changed task_id ns ne ∈
        release_events day_width min_date task_id od op
          (run_drag day_width s0 moves) →
      ns ≤ ne := by
  have hwin := run_drag_w_resize day_width moves s0 hmode hw0
  refine ⟨hwin, ?_⟩
  intro ns ne he
  have hnp : (run_drag day_width s0 moves).mode ≠ DragMode.progress := by
    rw [run_drag_mode]
    rcases hmode with h | h <;> rw [h] <;> simp
  obtain ⟨hns, hne⟩ :=
    release_date_event day_width min_date task_id od op _ hnp ns ne he
  rw [hns, hne]
  simp only [commit_dates]
  have h1 : (1:ℚ) ≤ (run_drag day_width s0 moves).rect.w / day_width :=
    (one_le_div hdw).mpr hwin
  have h2 := pyRound_ge_one h1
  have h3 : ((1:ℤ):Int) ≤
      pyRound ((run_drag day_width s0 moves).rect.w / day_width) := h2
  linarith

/-- Fresh ResizeEnd-drag state on a 3-day bar (120 px) pressed near its
right edge at scene x 500. -/
def demoDragC6 : DragState :=
  { rect := ⟨420, 88, 120, 40⟩
  , anchor_x := 500
  , has_moved := false
  , mode := DragMode.resize_right
  , bar_rect := ⟨420, 88, 120, 40⟩ }

theorem demoDragC6_release :
    release_events 40 0 9 (10, 12) 0 (run_drag 40 demoDragC6 [460]) =
      [Event.date_changed 9 10 11] := by
  norm_num [demoDragC6, release_events, run_drag, mouse_move_step,
    commit_dates, left_margin, pyRound, ratFloor_eq]

/-- Concrete instance of C6: shrinking the 3-day bar by 40 px keeps the
width at least 40 and commits days 10..11. -/
theorem C6_resize_clamped_witness :
    (40:ℚ) ≤ (run_drag 40 demoDragC6 [460]).rect.w ∧ (10 : Date) ≤ 11 :=
  ⟨(C6_resize_clamped 40 (by norm_num) 0 9 (10, 12) 0 demoDragC6 [460]
      (Or.inr rfl) (by norm_num [demoDragC6])).1,
   (C6_resize_clamped 40 (by norm_num) 0 9 (10, 12) 0 demoDragC6 [460]
      (Or.inr rfl) (by norm_num [demoDragC6])).2 10 11
      (by rw [demoDragC6_release]; simp)⟩

/-- C7: a press-and-release whose total pointer movement is at most 3
pixels never sets has_moved, so the release emits nothing; only the
selection signal from the press is ever emitted. -/
theorem C7_click_without_drag (day_width : ℚ) (min_date : Date)
    (task_id : Int) (od : Date × Date) (op : ℤ) (s0 : DragState)
    (moves : List ℚ) (h0 : s0.has_moved = false)
    (hjit : pathLen s0.anchor_x moves ≤ 3) :
    release_events day_width min_date task_id od op
      (run_drag day_width s0 moves) = [] ∧
    ∀ e ∈ press_events task_id, e = Event.clicked task_id := by
  constructor
  · have hm := run_drag_has_moved_false day_width moves s0 h0 hjit
    simp [release_events, hm]
  · intro e he
    unfold press_events at he
    split at he <;> simp_all

/-- Fresh Move-drag state pressed at scene x 425. -/
def demoDragC7 : DragState :=
  { rect := ⟨420, 88, 120, 40⟩
  , anchor_x := 425
  , has_moved := false
  , mode := DragMode.move
  , bar_rect := ⟨420, 88, 120, 40⟩ }

/-- Concrete instance of C7: two tiny pointer moves (1 px each) commit
nothing; the press emitted only the selection signal. -/
theorem C7_click_without_drag_witness :
    release_events 40 0 1 (10, 12) 0
      (run_drag 40 demoDragC7 [426, 427]) = [] ∧
    ∀ e ∈ press_events 1, e = Event.clicked 1 :=
  C7_click_without_drag 40 0 1 (10, 12) 0 demoDragC7 [426, 427] rfl
    (by norm_num [pathLen, demoDragC7])

end Gantt
